import Mathlib

/-!
Verification of the matrix-app-services authenticating reverse proxy and
virtual-client registry against its natural-language specification.

The definitions below are a shallow embedding of the Rust sources:
  src/matrix-app-services/src/servers/proxy.rs   (ProxiedRequest pipeline)
  src/matrix-app-services/src/client.rs          (Appservice, client registry)
  src/matrix-app-services/src/virtual_client.rs  (VirtualClientBuilder::build)
  src/matrix-app-services/src/types/state.rs     (State store wrapper)
  src/matrix-app-services/src/types/user.rs      (UserRecord)
  src/matrix-app-services/src/types/config.rs    (Config)

Conventions used throughout:
  - Rust panics (expect / unwrap) are modelled by Option-valued functions
    returning none at the panicking inputs.
  - Header names are kept lowercase, matching the normalisation performed
    by the http crate; a header map is an association list from a name to
    its nonempty list of values, mirroring http::HeaderMap.
  - Byte strings (header values, URL components) are modelled as String.
-/

namespace MAS

/-! ## Header maps

Model of http::HeaderMap. An entry pairs a (lowercase) header name with the
ordered list of values held under that name. A real HeaderMap has pairwise
distinct names and at least one value per entry; theorems that need these
facts take them as hypotheses (hmWF below).
-/

/-- Model of http::HeaderMap: association list from lowercase header names
to their ordered value lists. -/
abbrev HeaderMap := List (String × List String)

/-- Values stored under a name: the value list of the first entry carrying
that name (empty when absent). -/
def hmValues (m : HeaderMap) (n : String) : List String :=
  match m with
  | [] => []
  | e :: rest => if e.1 = n then e.2 else hmValues rest n

/-- Model of HeaderMap::get: first value stored under the name. -/
def hmGet (m : HeaderMap) (n : String) : Option String :=
  (hmValues m n).head?

/-- Model of HeaderMap::insert: replace every value under the name with the
single given value (entry appended when the name was absent). -/
def hmInsert (m : HeaderMap) (n v : String) : HeaderMap :=
  match m with
  | [] => [(n, [v])]
  | e :: rest => if e.1 = n then (n, [v]) :: rest else e :: hmInsert rest n v

/-- Model of HeaderMap::into_iter: every entry is flattened to its values,
the first value paired with some name and every further value with none,
exactly as the http crate yields repeated header values. -/
def hmPairs (m : HeaderMap) : List (Option String × String) :=
  m.flatMap fun e =>
    match e.2 with
    | [] => []
    | v :: rest => (some e.1, v) :: rest.map (fun w => ((none : Option String), w))

/-- Model of collecting an iterator of (name, value) pairs back into a
HeaderMap: each pair becomes a singleton entry. -/
def hmCollect (l : List (String × String)) : HeaderMap :=
  l.map fun p => (p.1, [p.2])

/-- Well-formedness of a real http::HeaderMap: every entry holds at least
one value. -/
def hmWF (m : HeaderMap) : Prop :=
  ∀ e ∈ m, e.2 ≠ ([] : List String)

instance (m : HeaderMap) : Decidable (hmWF m) :=
  List.decidableBAll _ m

/-- Prefix test on strings, modelling str::starts_with for the literal
ASCII prefixes used by the proxy (byte prefix and character prefix
coincide there). -/
def startsWithB (s pre : String) : Bool :=
  pre.data.isPrefixOf s.data

/-! ## URLs and form encoding -/

/-- Model of url::Url restricted to the components the proxy manipulates. -/
structure Url where
  scheme : String
  host : Option String
  port : Option Nat
  path : String
  query : Option String
deriving DecidableEq

/-- UTF-8 byte sequence of a character. -/
def utf8Bytes (c : Char) : List Nat :=
  let n := c.toNat
  if n < 128 then [n]
  else if n < 2048 then [192 + n / 64, 128 + n % 64]
  else if n < 65536 then [224 + n / 4096, 128 + (n / 64) % 64, 128 + n % 64]
  else [240 + n / 262144, 128 + (n / 4096) % 64, 128 + (n / 64) % 64, 128 + n % 64]

/-- Uppercase hexadecimal digit. -/
def hexDigit (n : Nat) : Char :=
  if n < 10 then Char.ofNat (48 + n) else Char.ofNat (55 + n)

/-- Percent-encoding of one byte, uppercase hex. -/
def percentByte (b : Nat) : String :=
  String.mk ['%', hexDigit (b / 16), hexDigit (b % 16)]

/-- Encoding of one character under the application/x-www-form-urlencoded
rules used by url::form_urlencoded::Serializer::append_pair: space becomes
a plus sign, ASCII alphanumerics and * - . _ pass through, every other
byte is percent-encoded. -/
def formEncodeChar (c : Char) : String :=
  if c = ' ' then "+"
  else if c.isAlphanum || c = '*' || c = '-' || c = '.' || c = '_' then String.singleton c
  else String.join ((utf8Bytes c).map percentByte)

/-- Form-urlencoding of a whole string. -/
def formEncode (s : String) : String :=
  String.join (s.data.map formEncodeChar)

/-- Model of Url::query_pairs_mut().append_pair(k, v): the encoded pair is
appended to the existing query (with an ampersand separator when the
existing query is nonempty). -/
def appendQueryPair (u : Url) (k v : String) : Url :=
  let pair := formEncode k ++ "=" ++ formEncode v
  let q := match u.query with
    | none => pair
    | some s => if s.isEmpty then pair else s ++ "&" ++ pair
  { u with query := some q }

/-- Special schemes of the WHATWG URL standard. -/
def specialScheme (s : String) : Bool :=
  s = "http" || s = "https" || s = "ws" || s = "wss" || s = "ftp" || s = "file"

/-- Default port of a scheme per the WHATWG URL standard, as in the url
crate. -/
def defaultPort (s : String) : Option Nat :=
  if s = "http" || s = "ws" then some 80
  else if s = "https" || s = "wss" then some 443
  else if s = "ftp" then some 21
  else none

/-- Model of Url::set_scheme for the schemes that occur here: the change is
applied when old and new scheme agree on being special, and ignored
otherwise (the source discards the Result). On a successful change the url
crate follows the WHATWG scheme setter and removes a port equal to the new
scheme's default port. Remaining refusal cases (invalid scheme text,
file-scheme host restrictions, cannot-be-a-base URLs) cannot arise for the
http(s) schemes used. -/
def Url.setScheme (u : Url) (s : String) : Url :=
  if specialScheme u.scheme = specialScheme s then
    { u with scheme := s,
             port := if u.port = defaultPort s then none else u.port }
  else u

/-! ## Configuration and service model -/

/-- Model of types::user::UserRecord: per-bot proxy token plus recorded
protocol identifiers. -/
structure UserRecord where
  token : String
  user_id : String
  device_id : String
deriving DecidableEq

/-- Model of the fields of types::config::Config that the proxy pipeline
and the registry read. The homeserver URL is carried already parsed, as
produced by Config::homeserver_url. -/
structure Config where
  appserviceToken : String
  homeserverUrl : Url
  senderLocalpart : String
deriving DecidableEq

/-- Model of Config::server_name, which is homeserver_url().host_str()
unwrapped. The source panics when the homeserver URL has no host; theorems
that rely on this function assume the host is present, making the default
branch unreachable. -/
def Config.serverName (c : Config) : String :=
  c.homeserverUrl.host.getD ""

/-- Model of the fields of client::Appservice read by the proxy. -/
structure Appservice where
  config : Config
  proxyToken : String
deriving DecidableEq

/-- Snapshot of the internal/user_records store keyed by localpart. -/
abbrev RecordStore := List (String × UserRecord)

/-- Lookup of a record by localpart, modelling State::get on the user
record store (a read that succeeds). A store read error makes the source
fall to the same failure branch as an absent record. -/
def lookupRecord (rs : RecordStore) (l : String) : Option UserRecord :=
  (rs.find? fun e => e.1 = l).map Prod.snd

/-! ## The proxied request pipeline (servers/proxy.rs) -/

/-- Model of servers::proxy::ProxiedEntity. -/
inductive ProxiedEntity where
  | service (authorization : String)
  | bot (authorization : String) (user_id : String)
deriving DecidableEq

/-- Model of servers::proxy::ProxiedRequest. The streamed body is opaque. -/
structure ProxiedRequest where
  method : String
  url : Url
  version : Nat
  headers : HeaderMap
  body : Nat
deriving DecidableEq

/-- Model of reqwest::Request as assembled by ProxiedRequest::into_request. -/
structure ReqwestRequest where
  method : String
  url : Url
  version : Nat
  headers : HeaderMap
  body : Nat
deriving DecidableEq

/-- Model of HeaderValue::to_str: succeeds exactly when every character is
visible ASCII, returning the text unchanged. -/
def headerValueToStr (s : String) : Option String :=
  if s.data.all (fun c => 32 ≤ c.toNat && c.toNat < 127) then some s else none

/-- Model of ProxiedRequest::header: first value under the name, dropped
when it is not valid header text. -/
def ProxiedRequest.header (r : ProxiedRequest) (n : String) : Option String :=
  (hmGet r.headers n).bind headerValueToStr

/-- Model of ProxiedRequest::verify_entity, translated branch for branch
from servers/proxy.rs lines 74-106. -/
def ProxiedRequest.verifyEntity (r : ProxiedRequest) (svc : Appservice)
    (records : RecordStore) : Option ProxiedEntity :=
  match r.header "x-proxy-role" with
  | none => none
  | some role =>
    if role = "SERVICE" then
      (r.header "x-proxy-token").bind fun v =>
        if v = svc.proxyToken
        then some (ProxiedEntity.service svc.config.appserviceToken)
        else none
    else if role = "BOT" then
      if (r.header "x-proxy-token").any (fun v => v = svc.proxyToken) then
        match r.header "x-proxy-bot-token" with
        | none => none
        | some botToken =>
          match r.header "x-proxy-bot-user" with
          | none => none
          | some botName =>
            match lookupRecord records botName with
            | none => none
            | some record =>
              if botToken = record.token then
                some (ProxiedEntity.bot svc.config.appserviceToken
                  ("@" ++ botName ++ ":" ++ svc.config.serverName))
              else none
      else none
    else none

/-- Filtering step of ProxiedRequest::authorize (lines 119-127): the header
map is rebuilt from its iterator, keeping a pair only when it carries a
name that does not start with x-proxy-. Pairs with no name, which the
iterator yields for every value after the first of a repeated header, are
discarded by the source's filter_map. -/
def stripProxy (m : HeaderMap) : HeaderMap :=
  hmCollect ((hmPairs m).filterMap fun p =>
    match p.1 with
    | some n => if startsWithB n "x-proxy-" then none else some (n, p.2)
    | none => none)

/-- Model of ProxiedRequest::authorize (lines 108-131): insert the Bearer
authorization, append the user_id query pair for bots, then strip the
x-proxy- headers. -/
def ProxiedRequest.authorize (r : ProxiedRequest) (e : ProxiedEntity) : ProxiedRequest :=
  let r1 := match e with
    | ProxiedEntity.service a =>
        { r with headers := hmInsert r.headers "authorization" ("Bearer " ++ a) }
    | ProxiedEntity.bot a uid =>
        { r with
          headers := hmInsert r.headers "authorization" ("Bearer " ++ a),
          url := appendQueryPair r.url "user_id" uid }
  { r1 with headers := stripProxy r1.headers }

/-- Model of ProxiedRequest::into_request (lines 62-72): when the request
host equals the configured homeserver host, only the scheme is rewritten
to the homeserver's; otherwise the URL is passed through unmodified. The
source unwraps the homeserver URL host inside the comparison; theorems
assume it is present. -/
def ProxiedRequest.intoRequest (r : ProxiedRequest) (svc : Appservice) : ReqwestRequest :=
  let proxyUrl := match r.url.host with
    | some h =>
      if svc.config.homeserverUrl.host = some h
      then r.url.setScheme svc.config.homeserverUrl.scheme
      else r.url
    | none => r.url
  { method := r.method, url := proxyUrl, version := r.version,
    headers := r.headers, body := r.body }

/-- Debug rendering of a header map, modelling the derived Debug output of
http::HeaderMap: every name and value appears verbatim. -/
def hmDebug (m : HeaderMap) : String :=
  "\x7b" ++ String.join (m.map fun e =>
    String.join (e.2.map fun v => "\"" ++ e.1 ++ "\": \"" ++ v ++ "\", ")) ++ "\x7d"

/-- Debug rendering of a ProxiedRequest, modelling the derived Debug impl
printed by handle_proxy: the full header map appears in the output. -/
def ProxiedRequest.debugFmt (r : ProxiedRequest) : String :=
  "ProxiedRequest \x7b method: " ++ r.method ++ ", headers: " ++ hmDebug r.headers ++ " \x7d"

/-- Outcome of one proxy request, up to the hand-off to the outbound
transport: either the terminal 401 response, or the forwarding call made
with the fully rewritten request (upstream success or failure happens
beyond this point). -/
inductive ProxyOutcome where
  | unauthorized (status : Nat) (body : String)
  | forward (req : ReqwestRequest)
deriving DecidableEq

/-- Model of servers::proxy::handle_proxy (lines 134-163) after request
parsing: classification, authorization, request building, plus the lines
printed to the process log along the way. -/
def handleProxyCore (svc : Appservice) (records : RecordStore)
    (r : ProxiedRequest) : ProxyOutcome × List String :=
  let log1 := "PROXYING: " ++ r.debugFmt
  match r.verifyEntity svc records with
  | some entity =>
    let r2 := r.authorize entity
    (ProxyOutcome.forward (r2.intoRequest svc), [log1, "AUTHORIZED: " ++ r2.debugFmt])
  | none => (ProxyOutcome.unauthorized 401 "proxy.unauthorized", [log1])

/-! ## Request parsing (From<axum::extract::Request>) -/

/-- Model of the relevant fields of axum::extract::Request. The uri field
is the origin-form request target (path and query). -/
structure AxumRequest where
  method : String
  uri : String
  version : Nat
  headers : HeaderMap
  body : Nat

/-- Model of the From<axum::extract::Request> impl (lines 35-47).
Returns none exactly where the source panics: missing Host header, Host
value that is not valid header text, or a reconstructed URL string the
parser rejects. URL parsing itself is the url crate's; it is taken as a
parameter. -/
def ProxiedRequest.fromAxum (parseUrl : String → Option Url)
    (r : AxumRequest) : Option ProxiedRequest :=
  match hmGet r.headers "host" with
  | none => none
  | some hv =>
    match headerValueToStr hv with
    | none => none
    | some host =>
      match parseUrl ("https://" ++ host ++ r.uri) with
      | none => none
      | some url =>
        some { method := r.method, url := url, version := r.version,
               headers := r.headers, body := r.body }

/-- Whole per-request proxy pipeline including parsing; none models the
handler aborting on a parse panic before any response is produced. -/
def handleProxy (parseUrl : String → Option Url) (svc : Appservice)
    (records : RecordStore) (r : AxumRequest) : Option (ProxyOutcome × List String) :=
  (ProxiedRequest.fromAxum parseUrl r).map (handleProxyCore svc records)

/-! ## Errors (error.rs) -/

/-- Model of error::Error. Variants not distinguished by any claim carry a
numeric tag standing for the wrapped foreign error; ciborium ser/de errors
reach callers as the Unknown variant via the From impls in error.rs. -/
inductive Error where
  | unknown (tag : Nat)
  | sled (tag : Nat)
  | matrixSdk (tag : Nat)
  | unregisteredUser (localpart : String)
deriving DecidableEq

/-! ## Virtual client registry (client.rs, virtual_client.rs)

The registry cache (Appservice.clients) and the user record store are the
mutable state threaded through VirtualClientBuilder::build. The underlying
matrix_sdk::Client object constructed for a virtual client is represented
by a fresh numeric identity drawn from a counter, so that two separately
constructed clients are distinct values, as two separately constructed
Rust objects are.
-/

/-- Model of virtual_client::VirtualClientKind. -/
inductive VirtualClientKind where
  | bot
  | service
deriving DecidableEq

/-- Model of virtual_client::VirtualClient; clientId identifies the
underlying constructed protocol client object. -/
structure VirtualClient where
  localpart : String
  clientId : Nat
  kind : VirtualClientKind
deriving DecidableEq

/-- Mutable state read and written by VirtualClientBuilder::build: the
in-memory client cache with its freshness counter, and the persisted user
record store. -/
structure AppState where
  clients : List (String × VirtualClient)
  nextId : Nat
  records : RecordStore
deriving DecidableEq

/-- Model of Appservice::retrieve_client: cache lookup by localpart. -/
def retrieveClient (st : AppState) (l : String) : Option VirtualClient :=
  ((st.clients.find? fun e => e.1 = l).map Prod.snd)

/-- Replacement insert on the cache association list, modelling
HashMap::insert in Appservice::store_client. -/
def cacheInsert (cs : List (String × VirtualClient)) (l : String)
    (c : VirtualClient) : List (String × VirtualClient) :=
  match cs with
  | [] => [(l, c)]
  | e :: rest => if e.1 = l then (l, c) :: rest else e :: cacheInsert rest l c

/-- Options accumulated by the VirtualClientBuilder setters. The restored
session and login response are opaque session values. -/
structure BuildOpts where
  localpart : String
  deviceId : Option Nat
  logIn : Bool
  createNew : Bool
  restoredSession : Option Nat
deriving DecidableEq

/-- Outcomes of the external fallible steps inside build: whether ruma
accepts the localpart and server name as a user id, and the result of the
appservice login round-trip when one is requested. -/
structure BuildEnv where
  validId : String → Bool
  loginResult : String → Except Nat Nat

/-- Kind chosen by build: the sender localpart gets the Service kind,
every other localpart the Bot kind (virtual_client.rs lines 102-106). -/
def buildKind (svc : Appservice) (opts : BuildOpts) : VirtualClientKind :=
  if opts.localpart = svc.config.senderLocalpart then VirtualClientKind.service
  else VirtualClientKind.bot

/-- Outcome of the configure step of build: configure_bot_client requires
a stored record for the localpart and fails with UnregisteredUser when
there is none (client.rs lines 173-205); configure_service_client always
succeeds here (its fallible steps are transport construction). -/
def buildConfigured (svc : Appservice) (opts : BuildOpts) (st : AppState) :
    Except Error Unit :=
  match buildKind svc opts with
  | VirtualClientKind.bot =>
    match lookupRecord st.records opts.localpart with
    | none => Except.error (Error.unregisteredUser opts.localpart)
    | some _ => Except.ok ()
  | VirtualClientKind.service => Except.ok ()

/-- Outcome of the session step of build (virtual_client.rs lines
124-155): a restored session is used as-is, a bot with login requested
uses the appservice login round-trip, everything else synthesizes the
session locally. -/
def buildSession (env : BuildEnv) (svc : Appservice) (opts : BuildOpts) :
    Except Error Nat :=
  match opts.restoredSession with
  | some s => Except.ok s
  | none =>
    if opts.logIn ∧ buildKind svc opts = VirtualClientKind.bot then
      match env.loginResult opts.localpart with
      | Except.error e => Except.error (Error.matrixSdk e)
      | Except.ok s => Except.ok s
    else Except.ok 0

/-- Client value constructed by a successful build; the fresh clientId is
the state counter, standing for the newly constructed client object. -/
def builtClient (svc : Appservice) (opts : BuildOpts) (st : AppState) : VirtualClient :=
  { localpart := opts.localpart, clientId := st.nextId, kind := buildKind svc opts }

/-- Model of VirtualClientBuilder::build (virtual_client.rs lines 90-168)
together with the Appservice cache operations it calls (client.rs lines
124-132). Returns the build result alongside the final state; an error
leaves the state exactly as received, because the source reaches
store_client only on the all-success path and never writes the record
store at all. The validId check models the ruma user id parse performed
before configuration. -/
def build (env : BuildEnv) (svc : Appservice) (opts : BuildOpts)
    (st : AppState) : Except Error VirtualClient × AppState :=
  if hcache : opts.createNew = false ∧ (retrieveClient st opts.localpart).isSome then
    (Except.ok ((retrieveClient st opts.localpart).get hcache.2), st)
  else
    if env.validId opts.localpart = false then
      (Except.error (Error.matrixSdk 0), st)
    else
      match buildConfigured svc opts st with
      | Except.error e => (Except.error e, st)
      | Except.ok _ =>
        match buildSession env svc opts with
        | Except.error e => (Except.error e, st)
        | Except.ok _ =>
          (Except.ok (builtClient svc opts st),
            { clients := cacheInsert st.clients opts.localpart (builtClient svc opts st),
              nextId := st.nextId + 1, records := st.records })

/-- Registry freshness invariant: every cached client was constructed with
an identity below the counter. -/
def regWF (st : AppState) : Prop :=
  ∀ e ∈ st.clients, e.2.clientId < st.nextId

instance (st : AppState) : Decidable (regWF st) :=
  List.decidableBAll _ st.clients

/-! ## The record store wrapper (types/state.rs)

State::get, insert, remove and keys are thin compositions of a sled tree
operation and a ciborium (de)serialization. Each is embedded as a pure
function of the outcomes of those effectful steps: the sled outcome and
the codec are parameters, and the wrapper's control flow over them is the
translated code. Byte strings are lists of byte values.
-/

/-- Byte string. -/
abbrev Bytes := List Nat

/-- Model of State::get (types/state.rs lines 29-36): a sled read error or
a decode error of the stored bytes is returned to the caller. -/
def State.get {V : Type} (treeGet : Except Nat (Option Bytes))
    (decode : Bytes → Except Nat V) : Except Error (Option V) :=
  match treeGet with
  | Except.error e => Except.error (Error.sled e)
  | Except.ok none => Except.ok none
  | Except.ok (some bs) =>
    match decode bs with
    | Except.error e => Except.error (Error.unknown e)
    | Except.ok v => Except.ok (some v)

/-- Model of State::insert (lines 16-26): serialization of the new value,
the sled write, and decoding of the previous value each propagate their
error to the caller. -/
def State.insert {V : Type} (encode : Except Nat Bytes)
    (treeInsert : Bytes → Except Nat (Option Bytes))
    (decode : Bytes → Except Nat V) : Except Error (Option V) :=
  match encode with
  | Except.error e => Except.error (Error.unknown e)
  | Except.ok serialized =>
    match treeInsert serialized with
    | Except.error e => Except.error (Error.sled e)
    | Except.ok none => Except.ok none
    | Except.ok (some prev) =>
      match decode prev with
      | Except.error e => Except.error (Error.unknown e)
      | Except.ok v => Except.ok (some v)

/-- Model of State::remove (lines 44-51). -/
def State.remove {V : Type} (treeRemove : Except Nat (Option Bytes))
    (decode : Bytes → Except Nat V) : Except Error (Option V) :=
  match treeRemove with
  | Except.error e => Except.error (Error.sled e)
  | Except.ok none => Except.ok none
  | Except.ok (some prev) =>
    match decode prev with
    | Except.error e => Except.error (Error.unknown e)
    | Except.ok v => Except.ok (some v)

/-- Model of State::keys (lines 54-61): the sled key iterator yields a
Result per key, and the source's filter_map keeps only the Ok keys. The
UTF-8 decode of a key is a parameter (the source unwraps it; stored keys
are UTF-8 so that unwrap concerns no claim). -/
def State.keys (iter : List (Except Nat Bytes))
    (decodeKey : Bytes → String) : List String :=
  iter.filterMap fun k =>
    match k with
    | Except.ok key => some (decodeKey key)
    | Except.error _ => none

/-! ## Auxiliary definitions used by the statements -/

/-- Per-entry description of stripProxy, proved equal to it below: an
entry survives exactly when its name does not start with x-proxy-, and
then carries only its first value. -/
def stripSpec (m : HeaderMap) : HeaderMap :=
  m.flatMap fun e =>
    match e.2 with
    | [] => []
    | v :: _ => if startsWithB e.1 "x-proxy-" then [] else [(e.1, [v])]

/-- Occurrence of a character list inside another. -/
def containsSub (hay needle : List Char) : Bool :=
  needle.isPrefixOf hay ||
    match hay with
    | [] => false
    | _ :: t => containsSub t needle

/-- Substring test on strings. -/
def strContainsB (hay needle : String) : Bool :=
  containsSub hay.data needle.data

/-- Authorization credential carried by a verified entity. -/
def entityAuth : ProxiedEntity → String
  | ProxiedEntity.service a => a
  | ProxiedEntity.bot a _ => a

/-- Projection of the forwarded request out of an outcome. -/
def forwardedOf : ProxyOutcome → Option ReqwestRequest
  | ProxyOutcome.forward f => some f
  | ProxyOutcome.unauthorized _ _ => none

/-! ## Concrete instances used to evaluate the model -/

/-- Example configuration: remote server http://example.org:8008, service
localpart mainbot. -/
def exConfig : Config :=
  { appserviceToken := "master-secret",
    homeserverUrl :=
      { scheme := "http", host := some "example.org", port := some 8008,
        path := "", query := none },
    senderLocalpart := "mainbot" }

/-- Example service instance. -/
def exSvc : Appservice :=
  { config := exConfig, proxyToken := "proxy-token-123" }

/-- Example stored record for localpart alice whose recorded user id names
a different localpart, as a record built by UserRecord::new (random id
localpart) and stored under another key would. -/
def exRecordAlice : UserRecord :=
  { token := "S", user_id := "@bob:example.org", device_id := "DEV" }

/-- Example record store. -/
def exRecords : RecordStore := [("alice", exRecordAlice)]

/-- Example verified bot request aimed at the configured homeserver. -/
def exReqBot : ProxiedRequest :=
  { method := "GET",
    url := { scheme := "https", host := some "example.org", port := none,
             path := "/_matrix/client/v3/whoami", query := none },
    version := 11,
    headers := [("host", ["example.org"]), ("x-proxy-role", ["BOT"]),
                ("x-proxy-token", ["proxy-token-123"]),
                ("x-proxy-bot-token", ["S"]), ("x-proxy-bot-user", ["alice"]),
                ("accept", ["application/json"])],
    body := 7 }

/-- Example verified bot request aimed at a host other than the
configured homeserver, with a pre-existing query. -/
def exReqBotOther : ProxiedRequest :=
  { method := "GET",
    url := { scheme := "https", host := some "other.net", port := none,
             path := "/media/file", query := some "a=1" },
    version := 11,
    headers := [("host", ["other.net"]), ("x-proxy-role", ["BOT"]),
                ("x-proxy-token", ["proxy-token-123"]),
                ("x-proxy-bot-token", ["S"]), ("x-proxy-bot-user", ["alice"])],
    body := 7 }

/-- Bot entity produced by verification of the two example bot requests. -/
def exEntityBot : ProxiedEntity :=
  ProxiedEntity.bot "master-secret" "@alice:example.org"

/-- Example verified service request. -/
def exReqService : ProxiedRequest :=
  { method := "GET",
    url := { scheme := "https", host := some "example.org", port := none,
             path := "/_matrix/client/v3/whoami", query := none },
    version := 11,
    headers := [("host", ["example.org"]), ("x-proxy-role", ["SERVICE"]),
                ("x-proxy-token", ["proxy-token-123"]),
                ("accept", ["a", "b"])],
    body := 3 }

/-- Example request with no proxy headers at all. -/
def exReqPlain : ProxiedRequest :=
  { method := "GET",
    url := { scheme := "https", host := some "example.org", port := none,
             path := "/x", query := none },
    version := 11,
    headers := [("host", ["example.org"])],
    body := 0 }

/-- Example inbound request with no Host header. -/
def exAxumNoHost : AxumRequest :=
  { method := "GET", uri := "/x", version := 11, headers := [], body := 0 }

/-- Example build environment in which the external steps succeed. -/
def exEnv : BuildEnv :=
  { validId := fun _ => true, loginResult := fun _ => Except.ok 1 }

/-- Builder options with the given localpart and force flag and all
optional settings left at their defaults. -/
def exOpts (l : String) (force : Bool) : BuildOpts :=
  { localpart := l, deviceId := none, logIn := false, createNew := force,
    restoredSession := none }

/-- Initial registry state: empty cache, records as in exRecords. -/
def exState0 : AppState :=
  { clients := [], nextId := 0, records := exRecords }

/-- Client constructed by the first build of alice from exState0. -/
def exClientAlice : VirtualClient :=
  { localpart := "alice", clientId := 0, kind := VirtualClientKind.bot }

/-- State after the first build of alice from exState0. -/
def exState1 : AppState :=
  { clients := [("alice", exClientAlice)], nextId := 1, records := exRecords }

/-- Second build environment, differing from exEnv in every external
outcome, used to show the cache path ignores the environment. -/
def exEnv2 : BuildEnv :=
  { validId := fun _ => false, loginResult := fun _ => Except.error 9 }

/-- Client constructed by a forced rebuild of alice from exState1. -/
def exClientAlice2 : VirtualClient :=
  { localpart := "alice", clientId := 1, kind := VirtualClientKind.bot }

/-- State after the forced rebuild of alice from exState1. -/
def exState2 : AppState :=
  { clients := [("alice", exClientAlice2)], nextId := 2, records := exRecords }

/-! ## Header map lemmas -/

lemma hmValues_insert_self (m : HeaderMap) (n v : String) :
    hmValues (hmInsert m n v) n = [v] := by
  induction m with
  | nil => simp [hmInsert, hmValues]
  | cons e rest ih =>
    by_cases h : e.1 = n
    · simp [hmInsert, h, hmValues]
    · simp [hmInsert, h, hmValues, ih]

lemma hmValues_insert_ne (m : HeaderMap) (n n' v : String) (h : n' ≠ n) :
    hmValues (hmInsert m n v) n' = hmValues m n' := by
  have hnn : ¬ (n = n') := fun hh => h hh.symm
  induction m with
  | nil => simp [hmInsert, hmValues, hnn]
  | cons e rest ih =>
    by_cases he : e.1 = n
    · simp [hmInsert, he, hmValues, hnn]
    · simp [hmInsert, he, hmValues, ih]

lemma hmWF_insert (m : HeaderMap) (n v : String) (hwf : hmWF m) :
    hmWF (hmInsert m n v) := by
  induction m with
  | nil => intro e he; simp [hmInsert] at he; simp [he]
  | cons e0 rest ih =>
    intro e he
    by_cases h : e0.1 = n
    · simp [hmInsert, h] at he
      rcases he with he | he
      · simp [he]
      · exact hwf e (List.mem_cons_of_mem _ he)
    · simp [hmInsert, h] at he
      rcases he with he | he
      · exact hwf e (by simp [he])
      · exact ih (fun x hx => hwf x (List.mem_cons_of_mem _ hx)) e he

lemma filterMap_anon_vals (vs : List String) :
    List.filterMap ((fun p : Option String × String =>
      match p.1 with
      | some n => if startsWithB n "x-proxy-" then none else some (n, p.2)
      | none => none) ∘ fun w => ((none : Option String), w)) vs = [] := by
  induction vs with
  | nil => rfl
  | cons a t ih => simp [List.filterMap_cons, Function.comp, ih]

lemma stripProxy_eq (m : HeaderMap) : stripProxy m = stripSpec m := by
  induction m with
  | nil => rfl
  | cons e rest ih =>
    have hpairs : hmPairs (e :: rest) = (match e.2 with
        | [] => []
        | v :: vrest => (some e.1, v) :: vrest.map (fun w => ((none : Option String), w)))
        ++ hmPairs rest := by
      simp [hmPairs, List.flatMap_cons]
    cases h2 : e.2 with
    | nil =>
      unfold stripProxy at ih ⊢
      rw [hpairs, h2]
      simpa [stripSpec, List.flatMap_cons, h2] using ih
    | cons v vs =>
      unfold stripProxy at ih ⊢
      rw [hpairs, h2]
      by_cases hs : startsWithB e.1 "x-proxy-"
      · rw [show stripSpec (e :: rest)
              = stripSpec rest by simp [stripSpec, List.flatMap_cons, h2, hs]]
        simpa [List.filterMap_cons, List.filterMap_append, filterMap_anon_vals, hs,
               hmCollect] using ih
      · rw [show stripSpec (e :: rest)
              = (e.1, [v]) :: stripSpec rest by simp [stripSpec, List.flatMap_cons, h2, hs]]
        simpa [List.filterMap_cons, List.filterMap_append, filterMap_anon_vals, hs,
               hmCollect] using ih

lemma stripSpec_names (m : HeaderMap) (x : String × List String)
    (hx : x ∈ stripSpec m) : startsWithB x.1 "x-proxy-" = false := by
  unfold stripSpec at hx
  rw [List.mem_flatMap] at hx
  obtain ⟨e, _, hxe⟩ := hx
  cases h2 : e.2 with
  | nil => simp [h2] at hxe
  | cons v vs =>
    by_cases hs : startsWithB e.1 "x-proxy-"
    · simp [h2, hs] at hxe
    · simp [h2, hs] at hxe
      simp [hxe, hs]

lemma find?_stripProxy (m : HeaderMap) (n : String)
    (h : startsWithB n "x-proxy-" = true) :
    (stripProxy m).find? (fun p => p.1 = n) = none := by
  rw [stripProxy_eq, List.find?_eq_none]
  intro x hx
  have hnames := stripSpec_names m x hx
  intro hcontra
  rw [show x.1 = n from of_decide_eq_true hcontra, h] at hnames
  exact Bool.noConfusion hnames

lemma hmValues_strip (n : String) (h : startsWithB n "x-proxy-" = false) :
    ∀ m : HeaderMap, hmWF m → hmValues (stripProxy m) n = (hmValues m n).take 1 := by
  intro m
  rw [stripProxy_eq]
  induction m with
  | nil => intro _; rfl
  | cons e rest ih =>
    intro hwf
    have hwfr : hmWF rest := fun x hx => hwf x (List.mem_cons_of_mem _ hx)
    cases h2 : e.2 with
    | nil => exact absurd h2 (hwf e (List.mem_cons_self e rest))
    | cons v vs =>
      by_cases he : e.1 = n
      · rw [show stripSpec (e :: rest) = (e.1, [v]) :: stripSpec rest by
            simp [stripSpec, List.flatMap_cons, h2, he, h]]
        simp [hmValues, he, h2]
      · by_cases hs : startsWithB e.1 "x-proxy-"
        · rw [show stripSpec (e :: rest) = stripSpec rest by
              simp [stripSpec, List.flatMap_cons, h2, hs]]
          simpa [hmValues, he] using ih hwfr
        · rw [show stripSpec (e :: rest) = (e.1, [v]) :: stripSpec rest by
              simp [stripSpec, List.flatMap_cons, h2, hs]]
          simpa [hmValues, he] using ih hwfr

lemma head?_take1 {α : Type} (l : List α) : (l.take 1).head? = l.head? := by
  cases l <;> rfl

lemma hmGet_strip (m : HeaderMap) (n : String)
    (h : startsWithB n "x-proxy-" = false) (hwf : hmWF m) :
    hmGet (stripProxy m) n = (hmValues m n).head? := by
  unfold hmGet
  rw [hmValues_strip n h m hwf, head?_take1]

/-! ## Substring lemmas -/

lemma isPrefixOf_self (l : List Char) : l.isPrefixOf l = true := by
  induction l with
  | nil => rfl
  | cons a t ih => simp [List.isPrefixOf, ih]

lemma containsSub_append (pre b : List Char) : containsSub (pre ++ b) b = true := by
  induction pre with
  | nil => unfold containsSub; simp [isPrefixOf_self]
  | cons a t ih => unfold containsSub; simp [ih]

lemma strContains_append (a b : String) : strContainsB (a ++ b) b = true := by
  unfold strContainsB
  rw [String.data_append]
  exact containsSub_append a.data b.data

/-! ## Characterization of verify_entity -/

lemma any_eq_token {o : Option String} {s : String}
    (h : o.any (fun v => v = s) = true) : o = some s := by
  cases o with
  | none => exact absurd h (by simp [Option.any])
  | some v => simp only [Option.any, decide_eq_true_eq] at h; rw [h]

lemma verify_eq_some_iff (svc : Appservice) (records : RecordStore)
    (r : ProxiedRequest) (e : ProxiedEntity) :
    r.verifyEntity svc records = some e ↔
      ((r.header "x-proxy-role" = some "SERVICE"
          ∧ r.header "x-proxy-token" = some svc.proxyToken
          ∧ e = ProxiedEntity.service svc.config.appserviceToken)
        ∨ (r.header "x-proxy-role" = some "BOT"
          ∧ r.header "x-proxy-token" = some svc.proxyToken
          ∧ ∃ u rec, r.header "x-proxy-bot-user" = some u
              ∧ r.header "x-proxy-bot-token" = some rec.token
              ∧ lookupRecord records u = some rec
              ∧ e = ProxiedEntity.bot svc.config.appserviceToken
                  ("@" ++ u ++ ":" ++ svc.config.serverName))) := by
  constructor
  · intro h
    unfold ProxiedRequest.verifyEntity at h
    split at h
    · cases h
    · rename_i role hrole
      split at h
      · rename_i hs
        obtain ⟨v, htok, hf⟩ := Option.bind_eq_some.mp h
        split at hf
        · rename_i hv
          left
          exact ⟨by rw [hrole, hs], by rw [htok, hv], (Option.some_inj.mp hf).symm⟩
        · cases hf
      · split at h
        · rename_i hs hb
          split at h
          · rename_i hany
            have htok := any_eq_token hany
            split at h
            · cases h
            · rename_i botToken hbt
              split at h
              · cases h
              · rename_i botName hbu
                split at h
                · cases h
                · rename_i record hrec
                  split at h
                  · rename_i ht
                    right
                    exact ⟨by rw [hrole, hb], htok,
                      botName, record, hbu, by rw [hbt, ht], hrec,
                      (Option.some_inj.mp h).symm⟩
                  · cases h
          · cases h
        · cases h
  · intro h
    unfold ProxiedRequest.verifyEntity
    rcases h with ⟨hrole, htok, he⟩ | ⟨hrole, htok, u, rec, hbu, hbt, hrec, he⟩
    · simp [hrole, htok, he]
    · simp [hrole, htok, hbu, hbt, hrec, he, Option.any]

/-! ## URL and pipeline lemmas -/

lemma setScheme_host (u : Url) (s : String) : (u.setScheme s).host = u.host := by
  unfold Url.setScheme; split <;> rfl

lemma setScheme_path (u : Url) (s : String) : (u.setScheme s).path = u.path := by
  unfold Url.setScheme; split <;> rfl

lemma setScheme_query (u : Url) (s : String) : (u.setScheme s).query = u.query := by
  unfold Url.setScheme; split <;> rfl

lemma setScheme_port (u : Url) (s : String) :
    (u.setScheme s).port
      = if specialScheme u.scheme = specialScheme s then
          (if u.port = defaultPort s then none else u.port)
        else u.port := by
  unfold Url.setScheme
  split <;> simp [*]

lemma appendQueryPair_fields (u : Url) (k v : String) :
    (appendQueryPair u k v).scheme = u.scheme ∧ (appendQueryPair u k v).host = u.host
      ∧ (appendQueryPair u k v).port = u.port ∧ (appendQueryPair u k v).path = u.path := by
  exact ⟨rfl, rfl, rfl, rfl⟩

lemma intoRequest_fields (r : ProxiedRequest) (svc : Appservice) :
    (r.intoRequest svc).url.host = r.url.host
      ∧ (r.intoRequest svc).url.path = r.url.path
      ∧ (r.intoRequest svc).url.query = r.url.query
      ∧ (r.intoRequest svc).headers = r.headers := by
  unfold ProxiedRequest.intoRequest
  cases hh : r.url.host with
  | none => simp [hh]
  | some h2 =>
    by_cases hc : svc.config.homeserverUrl.host = some h2
    · simp [hc, setScheme_host, setScheme_path, setScheme_query, hh]
    · simp [hc, hh]

lemma intoRequest_match (r : ProxiedRequest) (svc : Appservice) (h2 : String)
    (hh : r.url.host = some h2) (hc : svc.config.homeserverUrl.host = some h2) :
    (r.intoRequest svc).url = r.url.setScheme svc.config.homeserverUrl.scheme := by
  unfold ProxiedRequest.intoRequest
  simp [hh, hc]

lemma intoRequest_scheme_miss (r : ProxiedRequest) (svc : Appservice)
    (h : ∀ h2, r.url.host = some h2 → svc.config.homeserverUrl.host ≠ some h2) :
    (r.intoRequest svc).url = r.url := by
  unfold ProxiedRequest.intoRequest
  cases hh : r.url.host with
  | none => rfl
  | some h2 => simp [h h2 hh]

lemma authorize_headers (r : ProxiedRequest) (e : ProxiedEntity) :
    (r.authorize e).headers
      = stripProxy (hmInsert r.headers "authorization" ("Bearer " ++ entityAuth e)) := by
  cases e <;> rfl

lemma authorize_url_service (r : ProxiedRequest) (a : String) :
    (r.authorize (ProxiedEntity.service a)).url = r.url := rfl

lemma authorize_url_bot (r : ProxiedRequest) (a uid : String) :
    (r.authorize (ProxiedEntity.bot a uid)).url = appendQueryPair r.url "user_id" uid := rfl

lemma startsWith_auth : startsWithB "authorization" "x-proxy-" = false := by decide

lemma authorize_auth_get (r : ProxiedRequest) (e : ProxiedEntity) (hwf : hmWF r.headers) :
    hmGet (r.authorize e).headers "authorization" = some ("Bearer " ++ entityAuth e) := by
  rw [authorize_headers,
    hmGet_strip _ _ startsWith_auth
      (hmWF_insert _ _ _ hwf),
    hmValues_insert_self]
  rfl

lemma headerValueToStr_eq (s t : String) (h : headerValueToStr s = some t) : t = s := by
  unfold headerValueToStr at h
  split at h
  · exact (Option.some_inj.mp h).symm
  · cases h

lemma serverName_of_host (svc : Appservice) (hh : String)
    (h : svc.config.homeserverUrl.host = some hh) : svc.config.serverName = hh := by
  unfold Config.serverName
  rw [h]
  rfl

/-! ## Registry lemmas -/

lemma find_cacheInsert (cs : List (String × VirtualClient)) (l : String) (c : VirtualClient) :
    (cacheInsert cs l c).find? (fun e => e.1 = l) = some (l, c) := by
  induction cs with
  | nil => simp [cacheInsert]
  | cons e rest ih =>
    by_cases h : e.1 = l
    · simp [cacheInsert, h]
    · simp [cacheInsert, h, ih]

lemma retrieveClient_mk (cs : List (String × VirtualClient)) (l : String)
    (c : VirtualClient) (n : Nat) (rs : RecordStore) :
    retrieveClient { clients := cacheInsert cs l c, nextId := n, records := rs } l
      = some c := by
  unfold retrieveClient
  simp [find_cacheInsert]

lemma mem_of_retrieve (st : AppState) (l : String) (c : VirtualClient)
    (h : retrieveClient st l = some c) : ∃ e ∈ st.clients, e.2 = c := by
  unfold retrieveClient at h
  cases hf : st.clients.find? (fun e => e.1 = l) with
  | none => rw [hf] at h; cases h
  | some e =>
    rw [hf] at h
    exact ⟨e, List.mem_of_find?_eq_some hf, Option.some_inj.mp h⟩

/-! ## Claim theorems -/

/-- C4: every request carrying x-proxy-role SERVICE and the correct
x-proxy-token is forwarded with Authorization equal to Bearer followed by
the master appservice secret, and none of the four internal protocol
headers appears in the forwarded request. -/
theorem C4_service_forward (svc : Appservice) (records : RecordStore)
    (r : ProxiedRequest) (hwf : hmWF r.headers)
    (hrole : r.header "x-proxy-role" = some "SERVICE")
    (htok : r.header "x-proxy-token" = some svc.proxyToken) :
    ∃ f, (handleProxyCore svc records r).1 = ProxyOutcome.forward f
      ∧ hmGet f.headers "authorization"
          = some ("Bearer " ++ svc.config.appserviceToken)
      ∧ (∀ n ∈ (["x-proxy-role", "x-proxy-token", "x-proxy-bot-token",
            "x-proxy-bot-user"] : List String),
          f.headers.find? (fun p => p.1 = n) = none) := by
  have hv : r.verifyEntity svc records
      = some (ProxiedEntity.service svc.config.appserviceToken) :=
    (verify_eq_some_iff svc records r _).mpr (Or.inl ⟨hrole, htok, rfl⟩)
  refine ⟨(r.authorize (ProxiedEntity.service svc.config.appserviceToken)).intoRequest svc,
    ?_, ?_, ?_⟩
  · simp [handleProxyCore, hv]
  · rw [(intoRequest_fields _ svc).2.2.2]
    simpa [entityAuth] using
      authorize_auth_get r (ProxiedEntity.service svc.config.appserviceToken) hwf
  · intro n hn
    rw [(intoRequest_fields _ svc).2.2.2, authorize_headers]
    apply find?_stripProxy
    simp only [List.mem_cons, List.mem_singleton] at hn
    rcases hn with rfl | rfl | rfl | rfl | hn
    · decide
    · decide
    · decide
    · decide
    · simp at hn

/-- Witness for C4 at a concrete service request. -/
theorem C4_witness :
    hmWF exReqService.headers
      ∧ exReqService.header "x-proxy-role" = some "SERVICE"
      ∧ exReqService.header "x-proxy-token" = some exSvc.proxyToken
      ∧ (∃ f, (handleProxyCore exSvc exRecords exReqService).1 = ProxyOutcome.forward f
          ∧ hmGet f.headers "authorization"
              = some ("Bearer " ++ exSvc.config.appserviceToken)
          ∧ (∀ n ∈ (["x-proxy-role", "x-proxy-token", "x-proxy-bot-token",
                "x-proxy-bot-user"] : List String),
              f.headers.find? (fun p => p.1 = n) = none)) :=
  ⟨by decide, rfl, rfl,
    C4_service_forward exSvc exRecords exReqService (by decide) rfl rfl⟩

/-- C10 (amended): authorization strips every header whose name starts
with x-proxy-, replaces Authorization with the entity's Bearer credential,
and keeps only the first value of every other header. -/
theorem C10_prefix_strip (r : ProxiedRequest) (e : ProxiedEntity) (hwf : hmWF r.headers) :
    (∀ n, startsWithB n "x-proxy-" = true →
        ((r.authorize e).headers.find? fun p => p.1 = n) = none)
      ∧ hmValues (r.authorize e).headers "authorization" = ["Bearer " ++ entityAuth e]
      ∧ (∀ n, startsWithB n "x-proxy-" = false → n ≠ "authorization" →
          hmValues (r.authorize e).headers n = (hmValues r.headers n).take 1) := by
  refine ⟨?_, ?_, ?_⟩
  · intro n hn
    rw [authorize_headers]
    exact find?_stripProxy _ n hn
  · rw [authorize_headers,
      hmValues_strip _ startsWith_auth _ (hmWF_insert _ _ _ hwf), hmValues_insert_self]
    rfl
  · intro n hn hna
    rw [authorize_headers,
      hmValues_strip n hn _ (hmWF_insert _ _ _ hwf), hmValues_insert_ne _ _ _ _ hna]

/-- Counterexample to C10 as stated: a repeated non-internal header is not
forwarded unchanged; the authorized request keeps only its first value. -/
theorem C10_counterexample :
    exReqService.verifyEntity exSvc exRecords
        = some (ProxiedEntity.service "master-secret")
      ∧ hmValues exReqService.headers "accept" = ["a", "b"]
      ∧ hmValues ((exReqService.authorize
            (ProxiedEntity.service "master-secret")).headers) "accept" = ["a"] :=
  ⟨rfl, rfl, rfl⟩

/-- Witness for C10 at a concrete bot request. -/
theorem C10_witness :
    hmWF exReqBot.headers
      ∧ ((∀ n, startsWithB n "x-proxy-" = true →
            ((exReqBot.authorize exEntityBot).headers.find? fun p => p.1 = n) = none)
        ∧ hmValues (exReqBot.authorize exEntityBot).headers "authorization"
            = ["Bearer " ++ entityAuth exEntityBot]
        ∧ (∀ n, startsWithB n "x-proxy-" = false → n ≠ "authorization" →
            hmValues (exReqBot.authorize exEntityBot).headers n
              = (hmValues exReqBot.headers n).take 1)) :=
  ⟨by decide, C10_prefix_strip exReqBot exEntityBot (by decide)⟩

/-- C2 (amended): for every successfully classified request the forwarded
URL keeps the original host and path; the query is kept for a Service
caller and extended by exactly the appended user_id pair for a Bot
caller; when the host does not match the configured homeserver host,
scheme and port are kept unchanged; when it matches, the port is kept
unless the scheme rewrite applies and the port equals the rewritten
scheme's default port, in which case it is removed; and the Bearer master
credential is injected regardless of the destination host. -/
theorem C2_target_rewrite (svc : Appservice) (records : RecordStore)
    (r : ProxiedRequest) (e : ProxiedEntity) (hh : String)
    (hwf : hmWF r.headers)
    (hhost : svc.config.homeserverUrl.host = some hh)
    (hv : r.verifyEntity svc records = some e) :
    ((r.authorize e).intoRequest svc).url.host = r.url.host
      ∧ ((r.authorize e).intoRequest svc).url.path = r.url.path
      ∧ (∀ a, e = ProxiedEntity.service a →
          ((r.authorize e).intoRequest svc).url.query = r.url.query)
      ∧ (∀ a uid, e = ProxiedEntity.bot a uid →
          ((r.authorize e).intoRequest svc).url.query
            = (appendQueryPair r.url "user_id" uid).query)
      ∧ (r.url.host ≠ some hh →
          ((r.authorize e).intoRequest svc).url.scheme = r.url.scheme
            ∧ ((r.authorize e).intoRequest svc).url.port = r.url.port)
      ∧ (r.url.host = some hh →
          ((r.authorize e).intoRequest svc).url.port
            = if specialScheme r.url.scheme
                  = specialScheme svc.config.homeserverUrl.scheme
                ∧ r.url.port = defaultPort svc.config.homeserverUrl.scheme
              then none else r.url.port)
      ∧ hmGet ((r.authorize e).intoRequest svc).headers "authorization"
          = some ("Bearer " ++ svc.config.appserviceToken) := by
  have hfields := intoRequest_fields (r.authorize e) svc
  have hhost' : (r.authorize e).url.host = r.url.host := by
    cases e <;> rfl
  have hport : (r.authorize e).url.port = r.url.port := by
    cases e <;> rfl
  have hpath : (r.authorize e).url.path = r.url.path := by
    cases e <;> rfl
  have hscheme : (r.authorize e).url.scheme = r.url.scheme := by
    cases e <;> rfl
  have hauth : entityAuth e = svc.config.appserviceToken := by
    rcases (verify_eq_some_iff svc records r e).mp hv with
      ⟨_, _, he⟩ | ⟨_, _, u, rec, _, _, _, he⟩ <;> simp [he, entityAuth]
  refine ⟨hfields.1.trans hhost', hfields.2.1.trans hpath, ?_, ?_, ?_, ?_, ?_⟩
  · intro a ha
    subst ha
    exact (intoRequest_fields _ svc).2.2.1
  · intro a uid ha
    subst ha
    exact (intoRequest_fields _ svc).2.2.1
  · intro hne
    have hmiss : ∀ h2, (r.authorize e).url.host = some h2 →
        svc.config.homeserverUrl.host ≠ some h2 := by
      intro h2 hh2 hcon
      rw [hhost'] at hh2
      rw [hhost] at hcon
      exact hne (by rw [hh2, Option.some_inj.mp hcon])
    rw [intoRequest_scheme_miss _ svc hmiss]
    exact ⟨hscheme, hport⟩
  · intro hmatch
    have hf : ((r.authorize e).intoRequest svc).url
        = (r.authorize e).url.setScheme svc.config.homeserverUrl.scheme :=
      intoRequest_match (r.authorize e) svc hh (by rw [hhost', hmatch])
        (by rw [hhost])
    rw [hf, setScheme_port, hscheme, hport]
    by_cases h1 : specialScheme r.url.scheme
        = specialScheme svc.config.homeserverUrl.scheme
    · by_cases h2 : r.url.port = defaultPort svc.config.homeserverUrl.scheme
      · simp [h1, h2]
      · simp [h1, h2]
    · simp [h1]
  · rw [hfields.2.2.2, authorize_auth_get r e hwf, hauth]

/-- Counterexample to C2 as stated: a verified bot request for a host
other than the configured homeserver is forwarded with the master Bearer
credential injected and with the user_id pair appended to its query, so
the query is not byte-identical and a credential is injected. -/
theorem C2_counterexample :
    exReqBotOther.verifyEntity exSvc exRecords = some exEntityBot
      ∧ exReqBotOther.url.host = some "other.net"
      ∧ exSvc.config.homeserverUrl.host = some "example.org"
      ∧ (forwardedOf (handleProxyCore exSvc exRecords exReqBotOther).1).map
          (fun f => f.url.query) = some (some "a=1&user_id=%40alice%3Aexample.org")
      ∧ exReqBotOther.url.query = some "a=1"
      ∧ (forwardedOf (handleProxyCore exSvc exRecords exReqBotOther).1).map
          (fun f => hmGet f.headers "authorization")
          = some (some "Bearer master-secret") :=
  ⟨rfl, rfl, rfl, rfl, rfl, rfl⟩

/-- Witness for C2 at a concrete bot request to a non-matching host. -/
theorem C2_witness :
    hmWF exReqBotOther.headers
      ∧ exSvc.config.homeserverUrl.host = some "example.org"
      ∧ exReqBotOther.verifyEntity exSvc exRecords = some exEntityBot
      ∧ (((exReqBotOther.authorize exEntityBot).intoRequest exSvc).url.host
            = exReqBotOther.url.host
        ∧ ((exReqBotOther.authorize exEntityBot).intoRequest exSvc).url.path
            = exReqBotOther.url.path
        ∧ (∀ a, exEntityBot = ProxiedEntity.service a →
            ((exReqBotOther.authorize exEntityBot).intoRequest exSvc).url.query
              = exReqBotOther.url.query)
        ∧ (∀ a uid, exEntityBot = ProxiedEntity.bot a uid →
            ((exReqBotOther.authorize exEntityBot).intoRequest exSvc).url.query
              = (appendQueryPair exReqBotOther.url "user_id" uid).query)
        ∧ (exReqBotOther.url.host ≠ some "example.org" →
            ((exReqBotOther.authorize exEntityBot).intoRequest exSvc).url.scheme
                = exReqBotOther.url.scheme
              ∧ ((exReqBotOther.authorize exEntityBot).intoRequest exSvc).url.port
                = exReqBotOther.url.port)
        ∧ (exReqBotOther.url.host = some "example.org" →
            ((exReqBotOther.authorize exEntityBot).intoRequest exSvc).url.port
              = if specialScheme exReqBotOther.url.scheme
                    = specialScheme exSvc.config.homeserverUrl.scheme
                  ∧ exReqBotOther.url.port
                    = defaultPort exSvc.config.homeserverUrl.scheme
                then none else exReqBotOther.url.port)
        ∧ hmGet ((exReqBotOther.authorize exEntityBot).intoRequest exSvc).headers
              "authorization" = some ("Bearer " ++ exSvc.config.appserviceToken)) :=
  ⟨by decide, rfl, rfl,
    C2_target_rewrite exSvc exRecords exReqBotOther exEntityBot "example.org"
      (by decide) rfl rfl⟩

/-- C1 (amended): a correctly authenticated bot request is forwarded with
the Bearer master credential and a query containing the user_id pair built
from the x-proxy-bot-user localpart and the configured server name. -/
theorem C1_bot_masquerade (svc : Appservice) (records : RecordStore)
    (r : ProxiedRequest) (u bt : String) (rec : UserRecord) (hh : String)
    (hwf : hmWF r.headers)
    (hhost : svc.config.homeserverUrl.host = some hh)
    (hrole : r.header "x-proxy-role" = some "BOT")
    (htok : r.header "x-proxy-token" = some svc.proxyToken)
    (hbt : r.header "x-proxy-bot-token" = some bt)
    (hbu : r.header "x-proxy-bot-user" = some u)
    (hrec : lookupRecord records u = some rec)
    (hteq : bt = rec.token) :
    ∃ f q, (handleProxyCore svc records r).1 = ProxyOutcome.forward f
      ∧ hmGet f.headers "authorization"
          = some ("Bearer " ++ svc.config.appserviceToken)
      ∧ f.url.query = some q
      ∧ strContainsB q ("user_id=" ++ formEncode ("@" ++ u ++ ":" ++ hh)) = true := by
  have hsn : svc.config.serverName = hh := serverName_of_host svc hh hhost
  rw [← hsn]
  have hv : r.verifyEntity svc records
      = some (ProxiedEntity.bot svc.config.appserviceToken
          ("@" ++ u ++ ":" ++ svc.config.serverName)) :=
    (verify_eq_some_iff svc records r _).mpr
      (Or.inr ⟨hrole, htok, u, rec, hbu, hteq ▸ hbt, hrec, rfl⟩)
  obtain ⟨q0, hq0, hcontain⟩ : ∃ q0,
      (appendQueryPair r.url "user_id" ("@" ++ u ++ ":" ++ svc.config.serverName)).query
          = some q0
        ∧ strContainsB q0
            ("user_id=" ++ formEncode ("@" ++ u ++ ":" ++ svc.config.serverName))
          = true := by
    cases hq : r.url.query with
    | none =>
      refine ⟨formEncode "user_id" ++ "=" ++
        formEncode ("@" ++ u ++ ":" ++ svc.config.serverName), ?_, ?_⟩
      · simp [appendQueryPair, hq]
      · exact strContains_append ""
          ("user_id=" ++ formEncode ("@" ++ u ++ ":" ++ svc.config.serverName))
    | some s =>
      by_cases hse : s.isEmpty = true
      · refine ⟨formEncode "user_id" ++ "=" ++
          formEncode ("@" ++ u ++ ":" ++ svc.config.serverName), ?_, ?_⟩
        · simp [appendQueryPair, hq, hse]
        · exact strContains_append ""
            ("user_id=" ++ formEncode ("@" ++ u ++ ":" ++ svc.config.serverName))
      · refine ⟨s ++ "&" ++ (formEncode "user_id" ++ "=" ++
          formEncode ("@" ++ u ++ ":" ++ svc.config.serverName)), ?_, ?_⟩
        · simp [appendQueryPair, hq, hse]
        · exact strContains_append (s ++ "&")
            ("user_id=" ++ formEncode ("@" ++ u ++ ":" ++ svc.config.serverName))
  refine ⟨(r.authorize (ProxiedEntity.bot svc.config.appserviceToken
      ("@" ++ u ++ ":" ++ svc.config.serverName))).intoRequest svc, q0, ?_, ?_, ?_,
    hcontain⟩
  · simp [handleProxyCore, hv]
  · rw [(intoRequest_fields _ svc).2.2.2]
    simpa [entityAuth] using authorize_auth_get r
      (ProxiedEntity.bot svc.config.appserviceToken
        ("@" ++ u ++ ":" ++ svc.config.serverName)) hwf
  · rw [(intoRequest_fields _ svc).2.2.1, authorize_url_bot]
    exact hq0

/-- Counterexample to C1 as stated: the forwarded user_id value is built
from the request's localpart and the configured server name, not from the
user id recorded in the BotIdentityRecord, and the two differ here. -/
theorem C1_counterexample :
    exRecordAlice.user_id = "@bob:example.org"
      ∧ lookupRecord exRecords "alice" = some exRecordAlice
      ∧ exReqBot.verifyEntity exSvc exRecords = some exEntityBot
      ∧ (forwardedOf (handleProxyCore exSvc exRecords exReqBot).1).map
          (fun f => f.url.query) = some (some "user_id=%40alice%3Aexample.org")
      ∧ strContainsB "user_id=%40alice%3Aexample.org"
          ("user_id=" ++ formEncode exRecordAlice.user_id) = false :=
  ⟨rfl, rfl, rfl, rfl, rfl⟩

/-- Witness for C1 at a concrete authenticated bot request. -/
theorem C1_witness :
    hmWF exReqBot.headers
      ∧ exSvc.config.homeserverUrl.host = some "example.org"
      ∧ exReqBot.header "x-proxy-role" = some "BOT"
      ∧ exReqBot.header "x-proxy-token" = some exSvc.proxyToken
      ∧ exReqBot.header "x-proxy-bot-token" = some "S"
      ∧ exReqBot.header "x-proxy-bot-user" = some "alice"
      ∧ lookupRecord exRecords "alice" = some exRecordAlice
      ∧ "S" = exRecordAlice.token
      ∧ (∃ f q, (handleProxyCore exSvc exRecords exReqBot).1 = ProxyOutcome.forward f
          ∧ hmGet f.headers "authorization"
              = some ("Bearer " ++ exSvc.config.appserviceToken)
          ∧ f.url.query = some q
          ∧ strContainsB q
              ("user_id=" ++ formEncode ("@" ++ "alice" ++ ":" ++ "example.org"))
            = true) :=
  ⟨by decide, rfl, rfl, rfl, rfl, rfl, rfl, rfl,
    C1_bot_masquerade exSvc exRecords exReqBot "alice" "S" exRecordAlice "example.org"
      (by decide) rfl rfl rfl rfl rfl rfl rfl⟩

/-- C3: a request that misses the role header, carries a role outside
SERVICE and BOT, fails the x-proxy-token check, or (for BOT) misses the
bot headers, misses the record, or mismatches the bot token, gets exactly
the 401 response with the fixed body and is never forwarded. -/
theorem C3_unauthorized (svc : Appservice) (records : RecordStore) (r : ProxiedRequest)
    (h : r.header "x-proxy-role" = none
      ∨ (∃ role, r.header "x-proxy-role" = some role
          ∧ role ≠ "SERVICE" ∧ role ≠ "BOT")
      ∨ r.header "x-proxy-token" ≠ some svc.proxyToken
      ∨ (r.header "x-proxy-role" = some "BOT"
          ∧ (r.header "x-proxy-bot-token" = none
            ∨ r.header "x-proxy-bot-user" = none
            ∨ (∃ u, r.header "x-proxy-bot-user" = some u
                ∧ lookupRecord records u = none)
            ∨ (∃ u bt rec, r.header "x-proxy-bot-user" = some u
                ∧ r.header "x-proxy-bot-token" = some bt
                ∧ lookupRecord records u = some rec ∧ bt ≠ rec.token)))) :
    (handleProxyCore svc records r).1
        = ProxyOutcome.unauthorized 401 "proxy.unauthorized"
      ∧ ∀ f, (handleProxyCore svc records r).1 ≠ ProxyOutcome.forward f := by
  have hnone : r.verifyEntity svc records = none := by
    cases hv : r.verifyEntity svc records with
    | none => rfl
    | some e =>
      exfalso
      rcases (verify_eq_some_iff svc records r e).mp hv with
        ⟨hrole, htok, _⟩ | ⟨hrole, htok, u, rec, hbu, hbt, hrec, _⟩
      · rcases h with h | ⟨role, hr2, hs, _⟩ | h | ⟨hr2, _⟩
        · rw [h] at hrole; cases hrole
        · rw [hr2] at hrole; exact hs (Option.some_inj.mp hrole)
        · exact h htok
        · rw [hr2] at hrole
          have := Option.some_inj.mp hrole
          simp at this
      · rcases h with h | ⟨role, hr2, _, hb⟩ | h | ⟨_, hbots⟩
        · rw [h] at hrole; cases hrole
        · rw [hr2] at hrole; exact hb (Option.some_inj.mp hrole)
        · exact h htok
        · rcases hbots with h1 | h1 | ⟨u2, hu2, hl⟩ | ⟨u2, bt2, rec2, hu2, hbt2, hrec2, hne⟩
          · rw [h1] at hbt; cases hbt
          · rw [h1] at hbu; cases hbu
          · rw [hbu] at hu2
            rw [← Option.some_inj.mp hu2] at hl
            rw [hl] at hrec; cases hrec
          · rw [hbu] at hu2
            rw [← Option.some_inj.mp hu2] at hrec2
            rw [hrec2] at hrec
            rw [hbt] at hbt2
            exact hne (by
              rw [← Option.some_inj.mp hbt2, ← Option.some_inj.mp hrec])
  constructor
  · simp [handleProxyCore, hnone]
  · intro f
    simp [handleProxyCore, hnone]

/-- Witness for C3 at a concrete request with no proxy headers. -/
theorem C3_witness :
    (exReqPlain.header "x-proxy-role" = none
      ∨ (∃ role, exReqPlain.header "x-proxy-role" = some role
          ∧ role ≠ "SERVICE" ∧ role ≠ "BOT")
      ∨ exReqPlain.header "x-proxy-token" ≠ some exSvc.proxyToken
      ∨ (exReqPlain.header "x-proxy-role" = some "BOT"
          ∧ (exReqPlain.header "x-proxy-bot-token" = none
            ∨ exReqPlain.header "x-proxy-bot-user" = none
            ∨ (∃ u, exReqPlain.header "x-proxy-bot-user" = some u
                ∧ lookupRecord exRecords u = none)
            ∨ (∃ u bt rec, exReqPlain.header "x-proxy-bot-user" = some u
                ∧ exReqPlain.header "x-proxy-bot-token" = some bt
                ∧ lookupRecord exRecords u = some rec ∧ bt ≠ rec.token))))
      ∧ ((handleProxyCore exSvc exRecords exReqPlain).1
            = ProxyOutcome.unauthorized 401 "proxy.unauthorized"
          ∧ ∀ f, (handleProxyCore exSvc exRecords exReqPlain).1
              ≠ ProxyOutcome.forward f) :=
  ⟨Or.inl rfl, C3_unauthorized exSvc exRecords exReqPlain (Or.inl rfl)⟩

/-- C9: converting an inbound request with a missing Host header, a Host
value that is not valid header text, or an unparseable reconstructed URL
makes the handler panic (modelled by none) instead of answering 401 or
500. -/
theorem C9_parse_panics (p : String → Option Url) (svc : Appservice)
    (records : RecordStore) (ar : AxumRequest)
    (h : hmGet ar.headers "host" = none
      ∨ (∃ hv, hmGet ar.headers "host" = some hv
          ∧ (headerValueToStr hv = none
            ∨ p ("https://" ++ hv ++ ar.uri) = none))) :
    handleProxy p svc records ar = none := by
  unfold handleProxy ProxiedRequest.fromAxum
  rcases h with h | ⟨hv, hh, hcase⟩
  · simp [h]
  · cases htv : headerValueToStr hv with
    | none => simp [hh, htv]
    | some s =>
      rcases hcase with hcase | hcase
      · rw [htv] at hcase; cases hcase
      · have hs := headerValueToStr_eq hv s htv
        subst hs
        simp [hh, htv, hcase]

/-- Witness for C9 at a concrete request with no Host header. -/
theorem C9_witness :
    (hmGet exAxumNoHost.headers "host" = none
      ∨ (∃ hv, hmGet exAxumNoHost.headers "host" = some hv
          ∧ (headerValueToStr hv = none
            ∨ (fun _ => (none : Option Url)) ("https://" ++ hv ++ exAxumNoHost.uri)
                = none)))
      ∧ handleProxy (fun _ => none) exSvc exRecords exAxumNoHost = none :=
  ⟨Or.inl rfl,
    C9_parse_panics (fun _ => none) exSvc exRecords exAxumNoHost (Or.inl rfl)⟩

/-- C5: the handler logs every inbound request with its full header map
before verification, so the process log of a legitimate proxied request
contains the ProxySecret in cleartext, contradicting the stated invariant;
the concrete evaluation exhibits the secret inside the logged lines. -/
theorem C5_secret_logged :
    exSvc.proxyToken = "proxy-token-123"
      ∧ exReqBot.header "x-proxy-token" = some exSvc.proxyToken
      ∧ strContainsB (String.join (handleProxyCore exSvc exRecords exReqBot).2)
          exSvc.proxyToken = true :=
  ⟨rfl, rfl, rfl⟩

/-- Inversion of a successful build on the construction path: the client
is the freshly constructed one and the state gains exactly the replaced
cache entry and the bumped counter. -/
lemma build_ok_shape (env : BuildEnv) (svc : Appservice) (opts : BuildOpts)
    (st st2 : AppState) (c : VirtualClient)
    (hmiss : ¬ (opts.createNew = false ∧ (retrieveClient st opts.localpart).isSome))
    (hb : build env svc opts st = (Except.ok c, st2)) :
    c = builtClient svc opts st
      ∧ st2 = { clients := cacheInsert st.clients opts.localpart (builtClient svc opts st),
                nextId := st.nextId + 1, records := st.records } := by
  unfold build at hb
  rw [dif_neg hmiss] at hb
  split at hb
  · simp only [Prod.mk.injEq] at hb
    exact absurd hb.1 (by simp)
  · split at hb
    · simp only [Prod.mk.injEq] at hb
      exact absurd hb.1 (by simp)
    · split at hb
      · simp only [Prod.mk.injEq] at hb
        exact absurd hb.1 (by simp)
      · simp only [Prod.mk.injEq, Except.ok.injEq] at hb
        exact ⟨hb.1.symm, hb.2.symm⟩

/-- C6: a cached localpart is returned as-is by a non-forced build, with
the state untouched and no dependence on the external session steps; a
non-forced build is idempotent; a forced build on a cached localpart
returns a distinct client and replaces the cache entry. -/
theorem C6_registry_cache :
    (∀ (env env2 : BuildEnv) (svc : Appservice) (opts : BuildOpts) (st : AppState)
        (c : VirtualClient), opts.createNew = false →
        retrieveClient st opts.localpart = some c →
        build env svc opts st = (Except.ok c, st)
          ∧ build env2 svc opts st = build env svc opts st)
      ∧ (∀ (env : BuildEnv) (svc : Appservice) (opts : BuildOpts) (st st2 : AppState)
          (c : VirtualClient), opts.createNew = false →
          build env svc opts st = (Except.ok c, st2) →
          build env svc opts st2 = (Except.ok c, st2))
      ∧ (∀ (env : BuildEnv) (svc : Appservice) (opts : BuildOpts) (st st2 : AppState)
          (cOld cNew : VirtualClient), regWF st →
          opts.createNew = true →
          retrieveClient st opts.localpart = some cOld →
          build env svc opts st = (Except.ok cNew, st2) →
          cNew ≠ cOld ∧ retrieveClient st2 opts.localpart = some cNew) := by
  refine ⟨?_, ?_, ?_⟩
  · intro env env2 svc opts st c hforce hc
    have hcond : opts.createNew = false ∧ (retrieveClient st opts.localpart).isSome :=
      ⟨hforce, by rw [hc]; rfl⟩
    constructor
    · unfold build
      rw [dif_pos hcond]
      simp [hc]
    · unfold build
      rw [dif_pos hcond, dif_pos hcond]
  · intro env svc opts st st2 c hforce hb
    by_cases hs : (retrieveClient st opts.localpart).isSome
    · have hcond : opts.createNew = false ∧ (retrieveClient st opts.localpart).isSome :=
        ⟨hforce, hs⟩
      unfold build at hb ⊢
      rw [dif_pos hcond] at hb
      have h2 : st = st2 := congrArg Prod.snd hb
      subst h2
      rw [dif_pos hcond]
      have h1 : Except.ok ((retrieveClient st opts.localpart).get hcond.2)
          = (Except.ok c : Except Error VirtualClient) := congrArg Prod.fst hb
      rw [h1]
    · have hcond : ¬ (opts.createNew = false ∧ (retrieveClient st opts.localpart).isSome) :=
        fun hcon => hs hcon.2
      obtain ⟨hc, hst⟩ := build_ok_shape env svc opts st st2 c hcond hb
      have hret : retrieveClient st2 opts.localpart = some c := by
        rw [hst, hc]
        exact retrieveClient_mk st.clients opts.localpart _ _ st.records
      have hcond2 : opts.createNew = false ∧ (retrieveClient st2 opts.localpart).isSome :=
        ⟨hforce, by rw [hret]; rfl⟩
      unfold build
      rw [dif_pos hcond2]
      simp [hret]
  · intro env svc opts st st2 cOld cNew hwf hforce hcached hb
    have hcond : ¬ (opts.createNew = false ∧ (retrieveClient st opts.localpart).isSome) := by
      intro hcon
      rw [hforce] at hcon
      exact Bool.noConfusion hcon.1
    obtain ⟨hc, hst⟩ := build_ok_shape env svc opts st st2 cNew hcond hb
    constructor
    · obtain ⟨e, hmem, he⟩ := mem_of_retrieve st opts.localpart cOld hcached
      have hlt : cOld.clientId < st.nextId := he ▸ hwf e hmem
      intro heq
      rw [← heq, hc] at hlt
      simp [builtClient] at hlt
    · rw [hst, hc]
      exact retrieveClient_mk st.clients opts.localpart _ _ st.records

/-- Witness for C6 at concrete builds of alice from the example states. -/
theorem C6_witness :
    ((exOpts "alice" false).createNew = false
      ∧ retrieveClient exState1 "alice" = some exClientAlice
      ∧ (build exEnv exSvc (exOpts "alice" false) exState1
            = (Except.ok exClientAlice, exState1)
        ∧ build exEnv2 exSvc (exOpts "alice" false) exState1
            = build exEnv exSvc (exOpts "alice" false) exState1))
    ∧ (build exEnv exSvc (exOpts "alice" false) exState0
          = (Except.ok exClientAlice, exState1)
      ∧ build exEnv exSvc (exOpts "alice" false) exState1
          = (Except.ok exClientAlice, exState1))
    ∧ (regWF exState1
      ∧ (exOpts "alice" true).createNew = true
      ∧ retrieveClient exState1 "alice" = some exClientAlice
      ∧ build exEnv exSvc (exOpts "alice" true) exState1
          = (Except.ok exClientAlice2, exState2)
      ∧ (exClientAlice2 ≠ exClientAlice
        ∧ retrieveClient exState2 "alice" = some exClientAlice2)) :=
  ⟨⟨rfl, rfl, C6_registry_cache.1 exEnv exEnv2 exSvc (exOpts "alice" false) exState1
      exClientAlice rfl rfl⟩,
    ⟨rfl, C6_registry_cache.2.1 exEnv exSvc (exOpts "alice" false) exState0 exState1
      exClientAlice rfl rfl⟩,
    ⟨by decide, rfl, rfl, rfl,
      C6_registry_cache.2.2 exEnv exSvc (exOpts "alice" true) exState1 exState2
        exClientAlice exClientAlice2 (by decide) rfl rfl rfl⟩⟩

/-- C7: building a bot client for a localpart with no stored record fails
with the distinct UnregisteredUser error naming the localpart, and leaves
cache and record store exactly as they were. -/
theorem C7_unregistered_error (env : BuildEnv) (svc : Appservice) (opts : BuildOpts)
    (st : AppState)
    (hname : opts.localpart ≠ svc.config.senderLocalpart)
    (hvalid : env.validId opts.localpart = true)
    (hnorec : lookupRecord st.records opts.localpart = none)
    (hmiss : opts.createNew = true ∨ retrieveClient st opts.localpart = none) :
    build env svc opts st = (Except.error (Error.unregisteredUser opts.localpart), st) := by
  have hcond : ¬ (opts.createNew = false ∧ (retrieveClient st opts.localpart).isSome) := by
    intro hcon
    rcases hmiss with h | h
    · rw [h] at hcon
      exact Bool.noConfusion hcon.1
    · rw [h] at hcon
      exact Bool.noConfusion hcon.2
  unfold build
  rw [dif_neg hcond]
  simp [hvalid, buildConfigured, buildKind, hname, hnorec]

/-- Witness for C7 at a concrete unprovisioned localpart. -/
theorem C7_witness :
    ("carol" : String) ≠ exSvc.config.senderLocalpart
      ∧ exEnv.validId "carol" = true
      ∧ lookupRecord exState0.records "carol" = none
      ∧ retrieveClient exState0 "carol" = none
      ∧ build exEnv exSvc (exOpts "carol" false) exState0
          = (Except.error (Error.unregisteredUser "carol"), exState0) :=
  ⟨by decide, rfl, rfl, rfl,
    C7_unregistered_error exEnv exSvc (exOpts "carol" false) exState0
      (by decide) rfl rfl (Or.inr rfl)⟩

/-- C8 (amended): get, insert and remove propagate every persistence and
serialization error to the caller; keys silently skips iterator entries
whose retrieval fails, so iteration errors are not propagated. -/
theorem C8_error_propagation :
    (∀ (V : Type) (decode : Bytes → Except Nat V) (e : Nat),
        State.get (Except.error e) decode = Except.error (Error.sled e))
      ∧ (∀ (V : Type) (decode : Bytes → Except Nat V) (bs : Bytes) (d : Nat),
          decode bs = Except.error d →
          State.get (Except.ok (some bs)) decode = Except.error (Error.unknown d))
      ∧ (∀ (V : Type) (treeInsert : Bytes → Except Nat (Option Bytes))
            (decode : Bytes → Except Nat V) (e : Nat),
          State.insert (Except.error e) treeInsert decode
            = Except.error (Error.unknown e))
      ∧ (∀ (V : Type) (s : Bytes) (treeInsert : Bytes → Except Nat (Option Bytes))
            (decode : Bytes → Except Nat V) (e : Nat),
          treeInsert s = Except.error e →
          State.insert (Except.ok s) treeInsert decode = Except.error (Error.sled e))
      ∧ (∀ (V : Type) (s prev : Bytes) (treeInsert : Bytes → Except Nat (Option Bytes))
            (decode : Bytes → Except Nat V) (d : Nat),
          treeInsert s = Except.ok (some prev) → decode prev = Except.error d →
          State.insert (Except.ok s) treeInsert decode
            = Except.error (Error.unknown d))
      ∧ (∀ (V : Type) (decode : Bytes → Except Nat V) (e : Nat),
          State.remove (Except.error e) decode = Except.error (Error.sled e))
      ∧ (∀ (V : Type) (decode : Bytes → Except Nat V) (prev : Bytes) (d : Nat),
          decode prev = Except.error d →
          State.remove (Except.ok (some prev)) decode
            = Except.error (Error.unknown d))
      ∧ (∀ (l1 l2 : List (Except Nat Bytes)) (e : Nat) (dk : Bytes → String),
          State.keys (l1 ++ Except.error e :: l2) dk = State.keys (l1 ++ l2) dk) := by
  refine ⟨?_, ?_, ?_, ?_, ?_, ?_, ?_, ?_⟩
  · intro V decode e
    rfl
  · intro V decode bs d hd
    simp [State.get, hd]
  · intro V treeInsert decode e
    rfl
  · intro V s treeInsert decode e he
    simp [State.insert, he]
  · intro V s prev treeInsert decode d hp hd
    simp [State.insert, hp, hd]
  · intro V decode e
    rfl
  · intro V decode prev d hd
    simp [State.remove, hd]
  · intro l1 l2 e dk
    simp [State.keys, List.filterMap_append, List.filterMap_cons]

/-- Counterexample to C8 as stated: a key iteration that hits a
persistence error returns exactly what an empty iteration returns, so the
caller of keys cannot observe the error at all. -/
theorem C8_counterexample :
    State.keys [Except.error 3] (fun _ => "") = State.keys [] (fun _ => "")
      ∧ ([Except.error 3] : List (Except Nat Bytes)) ≠ [] :=
  ⟨rfl, by simp⟩

/-- Witness for C8 at concrete store outcomes. -/
theorem C8_witness :
    State.get (Except.error 2) (fun _ : Bytes => (Except.ok 0 : Except Nat Nat))
        = Except.error (Error.sled 2)
      ∧ ((fun _ : Bytes => (Except.error 5 : Except Nat Nat)) [] = Except.error 5
        ∧ State.get (Except.ok (some []))
            (fun _ : Bytes => (Except.error 5 : Except Nat Nat))
          = Except.error (Error.unknown 5))
      ∧ State.insert (Except.error 7)
          (fun _ => (Except.ok none : Except Nat (Option Bytes)))
          (fun _ : Bytes => (Except.ok 0 : Except Nat Nat))
        = Except.error (Error.unknown 7)
      ∧ ((fun _ : Bytes => (Except.error 4 : Except Nat (Option Bytes))) []
            = Except.error 4
        ∧ State.insert (Except.ok [])
            (fun _ => (Except.error 4 : Except Nat (Option Bytes)))
            (fun _ : Bytes => (Except.ok 0 : Except Nat Nat))
          = Except.error (Error.sled 4))
      ∧ ((fun _ : Bytes => (Except.ok (some []) : Except Nat (Option Bytes))) []
            = Except.ok (some [])
        ∧ (fun _ : Bytes => (Except.error 6 : Except Nat Nat)) [] = Except.error 6
        ∧ State.insert (Except.ok [])
            (fun _ => (Except.ok (some []) : Except Nat (Option Bytes)))
            (fun _ : Bytes => (Except.error 6 : Except Nat Nat))
          = Except.error (Error.unknown 6))
      ∧ State.remove (Except.error 8) (fun _ : Bytes => (Except.ok 0 : Except Nat Nat))
          = Except.error (Error.sled 8)
      ∧ ((fun _ : Bytes => (Except.error 9 : Except Nat Nat)) [] = Except.error 9
        ∧ State.remove (Except.ok (some []))
            (fun _ : Bytes => (Except.error 9 : Except Nat Nat))
          = Except.error (Error.unknown 9))
      ∧ State.keys ([Except.ok [97]] ++ Except.error 1 :: [Except.ok [98]])
            (fun _ => "k")
          = State.keys ([Except.ok [97]] ++ [Except.ok [98]]) (fun _ => "k") :=
  ⟨C8_error_propagation.1 Nat (fun _ => Except.ok 0) 2,
    ⟨rfl, C8_error_propagation.2.1 Nat (fun _ => Except.error 5) [] 5 rfl⟩,
    C8_error_propagation.2.2.1 Nat (fun _ => Except.ok none) (fun _ => Except.ok 0) 7,
    ⟨rfl, C8_error_propagation.2.2.2.1 Nat [] (fun _ => Except.error 4)
      (fun _ => Except.ok 0) 4 rfl⟩,
    ⟨rfl, rfl, C8_error_propagation.2.2.2.2.1 Nat [] [] (fun _ => Except.ok (some []))
      (fun _ => Except.error 6) 6 rfl rfl⟩,
    C8_error_propagation.2.2.2.2.2.1 Nat (fun _ => Except.ok 0) 8,
    ⟨rfl, C8_error_propagation.2.2.2.2.2.2.1 Nat (fun _ => Except.error 9) [] 9 rfl⟩,
    C8_error_propagation.2.2.2.2.2.2.2 [Except.ok [97]] [Except.ok [98]] 1
      (fun _ => "k")⟩

end MAS
